import Mathlib

/-!
Verification of the PokerBot repository (`src/bot.py`) against its
natural-language specification.

The source is a single Python class `SimplePlayer`.  Cards are 2-character
strings (rank character then suit character); under the hypotheses of all
claims considered here every card is such a 2-character string, so a card is
embedded as a pair of characters.  Python floats in the source are exact
decimal literals combined by `+` with at most one addend, so they are embedded
as rationals; Python `//` (floor division) is embedded as `Int.fdiv`, and
`int(x)` (truncation toward zero) as `pyInt` below.  Python exceptions are
embedded as `Except Unit`; a `try/except` block becomes a `match` on the
embedded body.
-/

namespace PokerBot

/-- A playing card: rank character (from `23456789TJQKA` when valid) and a
suit character.  Embeds the 2-character card strings of the source. -/
structure Card where
  rank : Char
  suit : Char
deriving DecidableEq

/-- The fixed rank order string `'23456789TJQKA'` of `bot.py` (used by
`has_straight`, `has_straight_draw` and the top-pair check). -/
def rankOrder : List Char :=
  ['2', '3', '4', '5', '6', '7', '8', '9', 'T', 'J', 'Q', 'K', 'A']

/-- `max(counts.values())` for the frequency dictionary of a list: the largest
multiplicity of any element.  (On the empty list the Python `max` would raise;
every call site below is guarded by non-emptiness, where this returns 0.) -/
def max_multiplicity [BEq α] (l : List α) : ℕ :=
  (l.map fun x => l.count x).foldr max 0

/-- `sum(1 for count in rank_counts.values() if count >= 2)`: the number of
distinct elements occurring at least twice (`pair_count` in `bot.py`). -/
def pair_count (rs : List Char) : ℕ :=
  rs.dedup.countP fun r => decide (2 ≤ rs.count r)

/-- `has_flush` of `bot.py` (line 396): some suit occurs at least 5 times
among hole + board. -/
def has_flush (hole_cards board : List Card) : Bool :=
  decide (5 ≤ max_multiplicity ((hole_cards ++ board).map Card.suit))

/-- `has_flush_draw` of `bot.py` (line 404): some suit occurs at least 4
times among hole + board. -/
def has_flush_draw (hole_cards board : List Card) : Bool :=
  decide (4 ≤ max_multiplicity ((hole_cards ++ board).map Card.suit))

/-- `has_straight` of `bot.py` (line 412): some window of 5 consecutive
characters of `rankOrder` is wholly contained in the set of ranks present.
Python iterates `i` over `range(len(rank_order) - 4)`, i.e. `range 9`.
Membership in the Python `set` of ranks coincides with list membership. -/
def has_straight (hole_cards board : List Card) : Bool :=
  let ranks := (hole_cards ++ board).map Card.rank
  (List.range 9).any fun i =>
    ((rankOrder.drop i).take 5).all fun r => decide (r ∈ ranks)

/-- `has_straight_draw` of `bot.py` (line 422): some window of 4 consecutive
characters of `rankOrder` has at least 3 of its characters present.
Python iterates `i` over `range(len(rank_order) - 3)`, i.e. `range 10`. -/
def has_straight_draw (hole_cards board : List Card) : Bool :=
  let ranks := (hole_cards ++ board).map Card.rank
  (List.range 10).any fun i =>
    decide (3 ≤ ((rankOrder.drop i).take 4).countP fun r => decide (r ∈ ranks))

/-- Python `max(board_ranks, key=lambda x: '23456789TJQKA'.index(x))` on a
non-empty list `c :: cs`, assuming every element's `index` call succeeds:
`max` keeps the earliest element whose key is maximal (it replaces the
current best only on a strictly larger key). -/
def pyMaxRank (c : Char) (cs : List Char) : Char :=
  cs.foldl (fun best x => if rankOrder.indexOf best < rankOrder.indexOf x then x else best) c

/-- The body of the `try:` block of `evaluate_postflop_hand` (`bot.py` lines
348-390).  The only failure point is `'23456789TJQKA'.index(x)` inside the
top-pair check, which raises `ValueError` when a board rank is not a valid
rank character; Python's `max(..., key=...)` evaluates the key on every
element, so the check is modelled as requiring all board ranks valid.
Python's short-circuit `if board_ranks and ... in hole_ranks` never evaluates
`max` on an empty board, hence the outer `match`. -/
def evalBody (hole_cards board : List Card) : Except Unit ℚ :=
  let hole_ranks := hole_cards.map Card.rank
  let board_ranks := board.map Card.rank
  let all_ranks := hole_ranks ++ board_ranks
  let max_count := max_multiplicity all_ranks
  let pairs := pair_count all_ranks
  if 4 ≤ max_count then .ok (19/20)                      -- four of a kind
  else if 3 ≤ max_count ∧ 2 ≤ pairs then .ok (9/10)      -- full house
  else if has_flush hole_cards board then .ok (17/20)    -- flush
  else if has_straight hole_cards board then .ok (4/5)   -- straight
  else if 3 ≤ max_count then .ok (3/4)                   -- three of a kind
  else if 2 ≤ pairs then .ok (13/20)                     -- two pair
  else if 2 ≤ max_count then                             -- one pair
    match board_ranks with
    | [] => .ok (1/2)
    | r :: rest =>
      if (r :: rest).all (fun x => rankOrder.contains x) then
        .ok (if pyMaxRank r rest ∈ hole_ranks then 3/5 else 1/2)
      else .error ()
  else if has_flush_draw hole_cards board ∨ has_straight_draw hole_cards board then
    .ok (9/20)                                           -- high card with draw
  else .ok (7/20)                                        -- high card

/-- `evaluate_postflop_hand` of `bot.py` (line 343): the empty-input guard
returns 0.3, and the `except` clause maps any failure of the body to 0.35. -/
def evaluate_postflop_hand (hole_cards board : List Card) : ℚ :=
  if hole_cards = [] ∨ board = [] then 3/10
  else
    match evalBody hole_cards board with
    | .ok q => q
    | .error _ => 7/20

/-- The eleven values `evaluate_postflop_hand` can produce
(0.3, 0.35, 0.45, 0.5, 0.6, 0.65, 0.75, 0.8, 0.85, 0.9, 0.95). -/
def postflopValues : List ℚ :=
  [3/10, 7/20, 9/20, 1/2, 3/5, 13/20, 3/4, 4/5, 17/20, 9/10, 19/20]

/-- The `rank_values` dictionary of `get_preflop_hand_strength` (`bot.py`
line 90): rank character to numeric value, 2 = 2 … A = 14. -/
def rank_values : List (Char × ℕ) :=
  [('2', 2), ('3', 3), ('4', 4), ('5', 5), ('6', 6), ('7', 7), ('8', 8),
   ('9', 9), ('T', 10), ('J', 11), ('Q', 12), ('K', 13), ('A', 14)]

/-- The branch tree of `get_preflop_hand_strength` (`bot.py` lines 94-161)
after the rank values have been looked up.  `suited` is `suit1 == suit2`;
Python's set comparison `{rank1, rank2} == {'A', 'K'}` is the symmetric
disjunction below (the two ranks are distinct in every branch where the set
test runs, since equal values return in the pair block first).  Note the
source's `if gap == 0` "suited connectors" test is unreachable (equal values
already returned), so real suited connectors (gap 1) land in the "one-gapper"
branch; it is nevertheless reproduced verbatim. -/
def strengthCore (rank1 rank2 : Char) (v1 v2 : ℕ) (suited : Bool) : ℚ :=
  let high_card := max v1 v2
  let low_card := min v1 v2
  let gap := high_card - low_card
  if v1 = v2 then
    if 13 ≤ v1 then 19/20         -- AA, KK
    else if 11 ≤ v1 then 17/20    -- QQ, JJ
    else if 8 ≤ v1 then 7/10      -- TT, 99, 88
    else 11/20                    -- 77-22
  else if (rank1 = 'A' ∧ rank2 = 'K') ∨ (rank1 = 'K' ∧ rank2 = 'A') then
    if suited then 4/5 else 3/4
  else if (rank1 = 'A' ∧ rank2 = 'Q') ∨ (rank1 = 'Q' ∧ rank2 = 'A') then
    if suited then 7/10 else 13/20
  else if (rank1 = 'A' ∧ rank2 = 'J') ∨ (rank1 = 'J' ∧ rank2 = 'A') then
    if suited then 13/20 else 3/5
  else if (rank1 = 'K' ∧ rank2 = 'Q') ∨ (rank1 = 'Q' ∧ rank2 = 'K') then
    if suited then 3/5 else 11/20
  else if high_card = 14 then
    if 10 ≤ low_card then (if suited then 3/5 else 1/2)
    else if suited ∧ 5 ≤ low_card then 9/20
    else if suited then 7/20
    else if 9 ≤ low_card then 9/20
    else 1/4
  else if 11 ≤ high_card ∧ 10 ≤ low_card then (if suited then 11/20 else 9/20)
  else if 12 ≤ high_card ∧ 9 ≤ low_card then (if suited then 9/20 else 7/20)
  else if suited ∧ gap = 0 then
    (if 9 ≤ high_card then 1/2 else if 6 ≤ high_card then 2/5 else 3/10)
  else if suited ∧ gap = 1 then
    (if 10 ≤ high_card then 9/20 else if 7 ≤ high_card then 7/20 else 1/4)
  else if gap = 0 ∧ 9 ≤ high_card then 7/20
  else 1/5

/-- Proof device: `strengthCore` with every returned constant multiplied by
20, landing in `ℕ` (every constant in the source tree is a multiple of
0.05).  `strengthCore_eq_coreN` below proves `strengthCore = strengthCoreN
/ 20`, letting kernel-decidable natural-number arithmetic replace rational
arithmetic in exhaustive checks. -/
def strengthCoreN (rank1 rank2 : Char) (v1 v2 : ℕ) (suited : Bool) : ℕ :=
  let high_card := max v1 v2
  let low_card := min v1 v2
  let gap := high_card - low_card
  if v1 = v2 then
    if 13 ≤ v1 then 19
    else if 11 ≤ v1 then 17
    else if 8 ≤ v1 then 14
    else 11
  else if (rank1 = 'A' ∧ rank2 = 'K') ∨ (rank1 = 'K' ∧ rank2 = 'A') then
    if suited then 16 else 15
  else if (rank1 = 'A' ∧ rank2 = 'Q') ∨ (rank1 = 'Q' ∧ rank2 = 'A') then
    if suited then 14 else 13
  else if (rank1 = 'A' ∧ rank2 = 'J') ∨ (rank1 = 'J' ∧ rank2 = 'A') then
    if suited then 13 else 12
  else if (rank1 = 'K' ∧ rank2 = 'Q') ∨ (rank1 = 'Q' ∧ rank2 = 'K') then
    if suited then 12 else 11
  else if high_card = 14 then
    if 10 ≤ low_card then (if suited then 12 else 10)
    else if suited ∧ 5 ≤ low_card then 9
    else if suited then 7
    else if 9 ≤ low_card then 9
    else 5
  else if 11 ≤ high_card ∧ 10 ≤ low_card then (if suited then 11 else 9)
  else if 12 ≤ high_card ∧ 9 ≤ low_card then (if suited then 9 else 7)
  else if suited ∧ gap = 0 then
    (if 9 ≤ high_card then 10 else if 6 ≤ high_card then 8 else 6)
  else if suited ∧ gap = 1 then
    (if 10 ≤ high_card then 9 else if 7 ≤ high_card then 7 else 5)
  else if gap = 0 ∧ 9 ≤ high_card then 7
  else 4

/-- `get_preflop_hand_strength` of `bot.py` (line 80).  Inputs that are not
exactly two cards return 0.2; an invalid rank character raises `KeyError` at
the `rank_values[rank]` lookup, which propagates to the caller (`.error`). -/
def get_preflop_hand_strength (hole_cards : List Card) : Except Unit ℚ :=
  match hole_cards with
  | [c1, c2] =>
    match rank_values.lookup c1.rank, rank_values.lookup c2.rank with
    | some v1, some v2 => .ok (strengthCore c1.rank c2.rank v1 v2 (decide (c1.suit = c2.suit)))
    | _, _ => .error ()
  | _ => .ok (1/5)

/-! ## Decision policy (`get_action` and the strategy functions) -/

/-- The `PokerAction` enumeration used by the decision functions. -/
inductive PokerAction where
  | FOLD | CHECK | CALL | RAISE
deriving DecidableEq

/-- The fields of `RoundStateClient` read by the decision functions.  The
Python `player_bets` dictionary may hold a bet under the integer player id or
under its string form `str(id)`; the two key spaces are modelled as two
association lists, both keyed by the numeric id. -/
structure RoundStateClient where
  round_num : ℤ
  current_bet : ℤ
  pot : ℤ
  player_bets_int : List (ℤ × ℤ)
  player_bets_str : List (ℤ × ℤ)
  community_cards : List Card

/-- The instance state of `SimplePlayer` consulted by `get_action` and the
strategy functions (`self.id`, `self.hand`, `self.big_blind_amount`,
`self.position`).  `self.current_chips` is overwritten with
`remaining_chips` on entry to `get_action`, so it is passed explicitly. -/
structure SimplePlayerState where
  id : ℤ
  hand : List Card
  big_blind_amount : ℤ
  position : ℤ

/-- `int(x)` of Python on a rational: truncation toward zero. -/
def pyInt (q : ℚ) : ℤ :=
  if q < 0 then -(-q).floor else q.floor

/-- `get_my_current_bet` of `bot.py` (line 184): integer key first, then the
string key, defaulting to 0. -/
def get_my_current_bet (self : SimplePlayerState) (round_state : RoundStateClient) : ℤ :=
  match round_state.player_bets_int.lookup self.id with
  | some v => v
  | none =>
    match round_state.player_bets_str.lookup self.id with
    | some v => v
    | none => 0

/-- `calculate_pot_odds` of `bot.py` (line 176): `amount_to_call /
total_pot` (true division) when the total pot is positive, else 0. -/
def calculate_pot_odds (self : SimplePlayerState) (round_state : RoundStateClient) : ℚ :=
  let my_bet := get_my_current_bet self round_state
  let amount_to_call := round_state.current_bet - my_bet
  let total_pot := round_state.pot + amount_to_call
  if 0 < total_pot then (amount_to_call : ℚ) / (total_pot : ℚ) else 0

/-- `get_stack_situation` of `bot.py` (line 163), with `self.current_chips`
passed explicitly (it equals `remaining_chips` at every call site reached
from `get_action`). -/
def get_stack_situation (current_chips big_blind_amount : ℤ) : String :=
  let bb_ratio : ℚ := if 0 < big_blind_amount then (current_chips : ℚ) / (big_blind_amount : ℚ) else 50
  if bb_ratio ≤ 10 then "critical"
  else if bb_ratio ≤ 20 then "short"
  else if bb_ratio ≤ 40 then "medium"
  else "deep"

/-- `preflop_strategy` of `bot.py` (line 224).  The only failure point is the
`get_preflop_hand_strength` call (a `KeyError` on a malformed hole card),
which propagates.  In the medium/deep open-check branch both arms of the
`random.random() < 0.3` test return CHECK, so no randomness is needed. -/
def preflop_strategy (self : SimplePlayerState) (amount_to_call remaining_chips : ℤ)
    (pot_odds : ℚ) (stack_situation : String) : Except Unit (PokerAction × ℤ) := do
  let hand_strength ← get_preflop_hand_strength self.hand
  let position_adjustment : ℚ :=
    if self.position = 2 then 2/25 else if self.position = 0 then -(2/25) else 0
  let adjusted_strength := hand_strength + position_adjustment
  if stack_situation = "critical" then
    if 3/5 ≤ adjusted_strength then pure (.RAISE, remaining_chips)
    else if amount_to_call = 0 then pure (.CHECK, 0)
    else if 2/5 ≤ adjusted_strength ∧ pot_odds < 3/10 then pure (.CALL, amount_to_call)
    else pure (.FOLD, 0)
  else if stack_situation = "short" then
    if amount_to_call = 0 then
      if 7/10 ≤ adjusted_strength then
        pure (.RAISE, min remaining_chips (self.big_blind_amount * 4))
      else if 1/2 ≤ adjusted_strength then pure (.CHECK, 0)
      else pure (.FOLD, 0)
    else
      if 4/5 ≤ adjusted_strength then pure (.RAISE, remaining_chips)
      else if 3/5 ≤ adjusted_strength ∧ pot_odds < 2/5 then pure (.CALL, amount_to_call)
      else pure (.FOLD, 0)
  else
    if amount_to_call = 0 then
      if 7/10 ≤ adjusted_strength then
        pure (.RAISE, min (self.big_blind_amount * 3) (remaining_chips.fdiv 4))
      else if 2/5 ≤ adjusted_strength then pure (.CHECK, 0)
      else pure (.FOLD, 0)
    else
      if 17/20 ≤ adjusted_strength then
        pure (.RAISE, min (amount_to_call * 3) (remaining_chips.fdiv 3))
      else if 3/5 ≤ adjusted_strength then
        if pot_odds < 7/20 then pure (.CALL, amount_to_call) else pure (.FOLD, 0)
      else if 2/5 ≤ adjusted_strength ∧ pot_odds < 1/5 then pure (.CALL, amount_to_call)
      else pure (.FOLD, 0)

/-- `postflop_strategy` of `bot.py` (line 293).  `r` is the draw of
`random.random()` used by the occasional-bluff test; every other step is
deterministic and total (`evaluate_postflop_hand` catches internally). -/
def postflop_strategy (self : SimplePlayerState) (board : List Card)
    (amount_to_call remaining_chips : ℤ) (pot_odds : ℚ)
    (round_state : RoundStateClient) (r : ℚ) : PokerAction × ℤ :=
  if board = [] then (.FOLD, 0)
  else
    let hand_strength := evaluate_postflop_hand self.hand board
    let stack_situation := get_stack_situation remaining_chips self.big_blind_amount
    if stack_situation = "critical" ∨ stack_situation = "short" then
      if amount_to_call = 0 then
        if 7/10 ≤ hand_strength then
          (.RAISE, min (round_state.pot.fdiv 2) (remaining_chips.fdiv 3))
        else (.CHECK, 0)
      else
        if 4/5 ≤ hand_strength then (.RAISE, remaining_chips)
        else if 3/5 ≤ hand_strength ∧ pot_odds < 3/10 then (.CALL, amount_to_call)
        else (.FOLD, 0)
    else
      if amount_to_call = 0 then
        if 3/4 ≤ hand_strength then
          (.RAISE, min (pyInt (7/10 * (round_state.pot : ℚ))) (remaining_chips.fdiv 3))
        else if 1/2 ≤ hand_strength then
          (.RAISE, min (pyInt (2/5 * (round_state.pot : ℚ))) (remaining_chips.fdiv 4))
        else if r < 3/20 then
          (.RAISE, min (pyInt (1/2 * (round_state.pot : ℚ))) (remaining_chips.fdiv 5))
        else (.CHECK, 0)
      else
        if 4/5 ≤ hand_strength then
          (.RAISE, min (amount_to_call * 2) (remaining_chips.fdiv 2))
        else if 3/5 ≤ hand_strength ∧ pot_odds < 2/5 then (.CALL, amount_to_call)
        else if 2/5 ≤ hand_strength ∧ pot_odds < 1/4 then (.CALL, amount_to_call)
        else (.FOLD, 0)

/-- The clamped `amount_to_call` of `get_action` (`bot.py` lines 197-204):
`current_bet - my_bet`, capped at `remaining_chips`.  The `except` clause of
`get_action` reads this same local variable. -/
def clampedCall (self : SimplePlayerState) (round_state : RoundStateClient)
    (remaining_chips : ℤ) : ℤ :=
  let my_bet := get_my_current_bet self round_state
  let amount_to_call := round_state.current_bet - my_bet
  if remaining_chips < amount_to_call then remaining_chips else amount_to_call

/-- The body of the `try:` block of `get_action` (`bot.py` lines 196-212):
everything before the `except` clause.  With the typed fields of
`RoundStateClient` the only failure point is the `get_preflop_hand_strength`
call inside `preflop_strategy`. -/
def getActionBody (self : SimplePlayerState) (round_state : RoundStateClient)
    (remaining_chips : ℤ) (r : ℚ) : Except Unit (PokerAction × ℤ) :=
  let pot_odds := calculate_pot_odds self round_state
  let stack_situation := get_stack_situation remaining_chips self.big_blind_amount
  let amount_to_call := clampedCall self round_state remaining_chips
  if round_state.round_num = 1 then
    preflop_strategy self amount_to_call remaining_chips pot_odds stack_situation
  else
    pure (postflop_strategy self round_state.community_cards amount_to_call
      remaining_chips pot_odds round_state r)

/-- The emergency fallback of the `except` clause of `get_action` (`bot.py`
lines 217-222). -/
def getActionFallback (amount_to_call remaining_chips : ℤ) : PokerAction × ℤ :=
  if amount_to_call = 0 then (.CHECK, 0)
  else if amount_to_call ≤ remaining_chips.fdiv 20 then (.CALL, amount_to_call)
  else (.FOLD, 0)

/-- `get_action` of `bot.py` (line 193): run the body and, on any exception,
return the emergency fallback computed from the clamped `amount_to_call`. -/
def get_action (self : SimplePlayerState) (round_state : RoundStateClient)
    (remaining_chips : ℤ) (r : ℚ) : PokerAction × ℤ :=
  match getActionBody self round_state remaining_chips r with
  | .ok a => a
  | .error _ => getActionFallback (clampedCall self round_state remaining_chips) remaining_chips

/-! ## Equity simulator, modelled from the spec

The repository source under `src/` contains no Monte Carlo equity simulator:
spec §4.1-§4.3 describe a Deck Model, a tier-based Hand Classifier and an
`estimate` function that do not appear in `bot.py`.  The definitions below
are therefore modelled from the spec's words and carry doc comments saying
so. -/

/-- Modelled from the spec (§4.1, §6): the fixed 4-symbol suit alphabet. -/
def all_suits : List Char := ['h', 's', 'd', 'c']

/-- Modelled from the spec (§4.1 Deck Model): all 52 rank × suit
combinations in a fixed canonical order (ranks outer, suits inner), filtered
to exclude any card present in `excluded`. -/
def build_deck (excluded : List Card) : List Card :=
  (rankOrder.flatMap fun r => all_suits.map fun s => ⟨r, s⟩).filter
    fun c => !(excluded.contains c)

/-- Modelled from the spec (§4.2 step 1): numeric rank value, 2 = 0 … A = 12
under the fixed rank order. -/
def spec_rank_value (c : Char) : ℕ := rankOrder.indexOf c

/-- Insert into a descending-sorted list, keeping it descending. -/
def insertDesc (x : ℕ) : List ℕ → List ℕ
  | [] => [x]
  | y :: ys => if y < x then x :: y :: ys else y :: insertDesc x ys

/-- Sort a list of naturals in descending order (spec §4.2: "full descending
rank sequence" tiebreak payload). -/
def sortDesc (l : List ℕ) : List ℕ := l.foldr insertDesc []

/-- Modelled from the spec (§4.2 step 4): the rank values `v` with
`4 ≤ v ≤ 12` such that the five consecutive values `v-4 … v` all occur among
the distinct rank values — the high ends of detected straights.  Ace-low is
deliberately not special-cased, reproducing the spec's statement. -/
def straightHighs (values : List ℕ) : List ℕ :=
  (List.range 13).filter fun v =>
    decide (4 ≤ v) && (List.range 5).all fun j => values.contains (v - j)

/-- Modelled from the spec (§3, §4.2): the tier-based `HandScore` of the
described Hand Classifier, encoded injectively into `ℤ` so that integer
comparison realises the lexicographic comparison over (tier,
tiebreak-payload).  The payload is padded with zeros to 7 digits (all inputs
scored by the simulator have exactly 7 cards, so same-tier payloads have
equal length and the padded base-15 encoding is order-faithful: every digit
is a rank value ≤ 12 < 15).  Classification order is the spec's list,
top-down, first match wins. -/
def spec_score (cards : List Card) : ℤ :=
  let values := cards.map fun c => spec_rank_value c.rank
  let distinct := values.dedup
  let counts := distinct.map fun v => values.count v
  let top := counts.foldr max 0
  let second := (counts.erase top).foldr max 0
  let flush := decide (5 ≤ max_multiplicity (cards.map Card.suit))
  let straights := straightHighs distinct
  let straight := !straights.isEmpty
  let high := straights.foldr max 0
  let tierPayload : ℕ × List ℕ :=
    if straight ∧ flush then (8, [high])
    else if top = 4 then (7, [])
    else if top = 3 ∧ 2 ≤ second then (6, [])
    else if flush then (5, sortDesc values)
    else if straight then (4, [high])
    else if top = 3 then (3, [])
    else if top = 2 ∧ second = 2 then (2, [])
    else if top = 2 then (1, [])
    else (0, sortDesc values)
  let digits := (tierPayload.2 ++ List.replicate 7 0).take 7
  digits.foldl (fun acc d => acc * 15 + (d : ℤ)) (tierPayload.1 : ℤ)

/-- Outcome of one Monte Carlo trial (spec §4.3 step 6). -/
inductive TrialOutcome where
  | win | tie | loss
deriving DecidableEq

/-- Modelled from the spec (§3 Deck lifecycle, §4.3 steps 3-4): cards are
dealt by popping from the end of the shuffled deck, so the dealt cards of a
trial are the first `2·opponent_count + (5 − |board|)` elements of the
reversed shuffled deck. -/
def trialDraw (board_len opponent_count : ℕ) (shuffled : List Card) : List Card :=
  shuffled.reverse.take (2 * opponent_count + (5 - board_len))

/-- Modelled from the spec (§4.3 step 4): the cards completing the board —
the `5 − |board|` cards popped after the opponents' 2-card deals. -/
def board_completion (board_len opponent_count : ℕ) (shuffled : List Card) : List Card :=
  ((trialDraw board_len opponent_count shuffled).drop (2 * opponent_count)).take (5 - board_len)

/-- Modelled from the spec (§4.3 step 5): opponent `i`'s 7-card score — their
2 popped hole cards (cards `2i, 2i+1` of the draw) plus the completed
board. -/
def opponent_scores (drawn full_board : List Card) (opponent_count : ℕ) : List ℤ :=
  (List.range opponent_count).map fun i => spec_score ((drawn.drop (2 * i)).take 2 ++ full_board)

/-- Modelled from the spec (§4.3, one trial): deal 2 cards to each opponent
by popping from the shuffled residual deck, complete the board with
`5 − |board|` further pops, score the player's 7 cards and each opponent's 7
cards, and compare the player's score against the maximum opponent score
(spec §4.3 step 6: win if strictly greater, tie if equal, else loss).
Fails (`InsufficientDeckError`) when the requested deal exceeds the deck
size; an opponent count of 0 is outside the contract and also fails. -/
def run_trial (hole_cards board : List Card) (opponent_count : ℕ)
    (shuffled : List Card) : Except Unit TrialOutcome :=
  if shuffled.length < 2 * opponent_count + (5 - board.length) then .error ()
  else
    let full_board := board ++ board_completion board.length opponent_count shuffled
    let my_score := spec_score (hole_cards ++ full_board)
    match opponent_scores (trialDraw board.length opponent_count shuffled)
        full_board opponent_count with
    | [] => .error ()
    | o :: os =>
      let best := os.foldl max o
      .ok (if best < my_score then .win else if my_score = best then .tie else .loss)

/-- Modelled from the spec (§4.3): run the trials in order; any failing trial
fails the whole call. -/
def run_trials (hole_cards board : List Card) (opponent_count : ℕ) :
    List (List Card) → Except Unit (List TrialOutcome)
  | [] => .ok []
  | s :: ss =>
    match run_trial hole_cards board opponent_count s with
    | .error e => .error e
    | .ok o =>
      match run_trials hole_cards board opponent_count ss with
      | .error e => .error e
      | .ok os => .ok (o :: os)

/-- Modelled from the spec (§4.3 `estimate`): the randomness source is made
explicit as one shuffled residual deck per trial (`trials = shuffles.length`);
after all trials the estimate is `(wins + 0.5*ties) / trials`. -/
def spec_estimate (hole_cards board : List Card) (opponent_count : ℕ)
    (shuffles : List (List Card)) : Except Unit ℚ :=
  match run_trials hole_cards board opponent_count shuffles with
  | .error e => .error e
  | .ok outcomes =>
    let wins : ℚ := outcomes.countP (fun o => o == TrialOutcome.win)
    let ties : ℚ := outcomes.countP (fun o => o == TrialOutcome.tie)
    .ok ((wins + (1/2) * ties) / (shuffles.length : ℚ))

/-! ## Concrete inputs used by counterexamples and witnesses -/

/-- A straight-flush hand: hole 2h 3h. -/
def sfHole : List Card := [⟨'2','h'⟩, ⟨'3','h'⟩]
/-- Board 4h 5h 6h, completing the 2-6 straight flush in hearts. -/
def sfBoard : List Card := [⟨'4','h'⟩, ⟨'5','h'⟩, ⟨'6','h'⟩]
/-- A four-of-a-kind hand: hole Ah As. -/
def quadsHole : List Card := [⟨'A','h'⟩, ⟨'A','s'⟩]
/-- Board Ad Ac Kh, completing quad aces. -/
def quadsBoard : List Card := [⟨'A','d'⟩, ⟨'A','c'⟩, ⟨'K','h'⟩]
/-- A second four-of-a-kind hand: hole 2h 2s. -/
def quadsHole' : List Card := [⟨'2','h'⟩, ⟨'2','s'⟩]
/-- Board 2d 2c 9h, completing quad deuces. -/
def quadsBoard' : List Card := [⟨'2','d'⟩, ⟨'2','c'⟩, ⟨'9','h'⟩]
/-- A full-house hand: hole Ah Ad. -/
def fullHouseHole : List Card := [⟨'A','h'⟩, ⟨'A','d'⟩]
/-- Board As Kc Kh, completing aces full of kings. -/
def fullHouseBoard : List Card := [⟨'A','s'⟩, ⟨'K','c'⟩, ⟨'K','h'⟩]
/-- A flush hand: hole 2h 7h. -/
def flushHole : List Card := [⟨'2','h'⟩, ⟨'7','h'⟩]
/-- Board 9h Jh Qh, completing a heart flush (no straight, no pair). -/
def flushBoard : List Card := [⟨'9','h'⟩, ⟨'J','h'⟩, ⟨'Q','h'⟩]
/-- A three-of-a-kind hand: hole 5h 5d. -/
def tripsHole : List Card := [⟨'5','h'⟩, ⟨'5','d'⟩]
/-- Board 5s Kc 2h, completing trip fives (no flush, no straight). -/
def tripsBoard : List Card := [⟨'5','s'⟩, ⟨'K','c'⟩, ⟨'2','h'⟩]
/-- A top-pair hand: hole Ah 2d pairing the top board card. -/
def topPairHole : List Card := [⟨'A','h'⟩, ⟨'2','d'⟩]
/-- Board As 7c 3d: the ace pairs the hole. -/
def topPairBoard : List Card := [⟨'A','s'⟩, ⟨'7','c'⟩, ⟨'3','d'⟩]
/-- A low-pair hand: hole 3h 2d pairing a low board card. -/
def lowPairHole : List Card := [⟨'3','h'⟩, ⟨'2','d'⟩]
/-- Board As 7c 3d: the trey pairs the hole but the top board card (A) does
not. -/
def lowPairBoard : List Card := [⟨'A','s'⟩, ⟨'7','c'⟩, ⟨'3','d'⟩]
/-- The ace-low wheel: hole Ah 2d. -/
def wheelHole : List Card := [⟨'A','h'⟩, ⟨'2','d'⟩]
/-- Board 3c 4s 5h, completing the card set {A,2,3,4,5} with no flush. -/
def wheelBoard : List Card := [⟨'3','c'⟩, ⟨'4','s'⟩, ⟨'5','h'⟩]
/-- A degenerate 3-card classifier input: hole Ah Kd. -/
def shortHole : List Card := [⟨'A','h'⟩, ⟨'K','d'⟩]
/-- A one-card board, giving only 3 cards in total. -/
def shortBoard : List Card := [⟨'Q','s'⟩]
/-- A player state whose hand holds a malformed card (rank `X`), making the
preflop strength lookup raise. -/
def failSelf : SimplePlayerState := ⟨7, [⟨'X','h'⟩, ⟨'2','d'⟩], 10, 1⟩
/-- A preflop round state: round 1, a bet of 50 to call, pot 100, no bets
recorded for our player. -/
def failRound : RoundStateClient := ⟨1, 50, 100, [], [], []⟩
/-- Equity-simulator witness hole cards: Ah Kd. -/
def c5Hole : List Card := [⟨'A','h'⟩, ⟨'K','d'⟩]
/-- Equity-simulator witness board (4 cards): Qs Jc Th 2d. -/
def c5Board : List Card := [⟨'Q','s'⟩, ⟨'J','c'⟩, ⟨'T','h'⟩, ⟨'2','d'⟩]
/-- One trial whose shuffle is the canonical residual deck itself (the
identity permutation). -/
def c5Shuffles : List (List Card) := [build_deck (c5Hole ++ c5Board)]

/-! ## Helper lemmas -/

/-- Every value in `postflopValues` lies in the interval [0.3, 0.95]. -/
theorem postflopValues_bounds : ∀ q ∈ postflopValues, 3/10 ≤ q ∧ q ≤ 19/20 := by
  norm_num [postflopValues]

/-- Every successful result of the classifier body is one of the eleven
listed scores. -/
theorem evalBody_ok_mem {hole_cards board : List Card} {q : ℚ}
    (h : evalBody hole_cards board = .ok q) : q ∈ postflopValues := by
  simp only [evalBody] at h
  repeat' split at h
  all_goals first
    | (injection h with h; subst h; norm_num [postflopValues])
    | (cases h)

/-- `evaluate_postflop_hand` always returns one of the eleven listed
scores. -/
theorem evaluate_mem_postflopValues (hole_cards board : List Card) :
    evaluate_postflop_hand hole_cards board ∈ postflopValues := by
  unfold evaluate_postflop_hand
  split
  · norm_num [postflopValues]
  · split
    · exact evalBody_ok_mem (by assumption)
    · norm_num [postflopValues]

/-- When every card has a valid rank character the classifier body cannot
fail (its only failure point is an invalid board rank inside the top-pair
check). -/
theorem evalBody_isOk {hole_cards board : List Card}
    (hv : ∀ c ∈ hole_cards ++ board, c.rank ∈ rankOrder) :
    ∃ q, evalBody hole_cards board = .ok q := by
  have hcond : ∀ (r : Char) (rest : List Char), board.map Card.rank = r :: rest →
      ((r :: rest).all fun x => rankOrder.contains x) = true := by
    intro r rest hbr
    rw [List.all_eq_true]
    intro x hx
    have hxb : x ∈ board.map Card.rank := by rw [hbr]; exact hx
    obtain ⟨c, hc, rfl⟩ := List.mem_map.mp hxb
    exact List.elem_iff.mpr (hv c (List.mem_append.mpr (Or.inr hc)))
  simp only [evalBody]
  repeat' split
  all_goals try exact ⟨_, rfl⟩
  all_goals exfalso; rename_i heq hall; exact hall (hcond _ _ heq)

/-- Unfolding `evaluate_postflop_hand` on non-degenerate input when the body
succeeds. -/
theorem evaluate_eq_of_body {hole_cards board : List Card} {q : ℚ}
    (hh : hole_cards ≠ []) (hb : board ≠ [])
    (h : evalBody hole_cards board = .ok q) :
    evaluate_postflop_hand hole_cards board = q := by
  unfold evaluate_postflop_hand
  rw [if_neg (by rintro (rfl | rfl) <;> simp at hh hb), h]

/-- Four-of-a-kind branch (`bot.py` line 367): a top multiplicity of at
least 4 scores 0.95. -/
theorem evalBody_quads {hole_cards board : List Card}
    (h : 4 ≤ max_multiplicity (hole_cards.map Card.rank ++ board.map Card.rank)) :
    evalBody hole_cards board = .ok (19/20) := by
  simp only [evalBody]
  rw [if_pos h]

/-- Full-house branch (`bot.py` line 369): top multiplicity 3 with a second
rank of multiplicity ≥ 2 scores 0.90. -/
theorem evalBody_full_house {hole_cards board : List Card}
    (h3 : max_multiplicity (hole_cards.map Card.rank ++ board.map Card.rank) = 3)
    (hp : 2 ≤ pair_count (hole_cards.map Card.rank ++ board.map Card.rank)) :
    evalBody hole_cards board = .ok (9/10) := by
  simp only [evalBody]
  rw [if_neg (by omega), if_pos ⟨by omega, hp⟩]

/-- Flush branch (`bot.py` line 371): no rank multiplicity above 2 and a
5-card suit scores 0.85. -/
theorem evalBody_flush {hole_cards board : List Card}
    (hm : max_multiplicity (hole_cards.map Card.rank ++ board.map Card.rank) ≤ 2)
    (hf : has_flush hole_cards board = true) :
    evalBody hole_cards board = .ok (17/20) := by
  simp only [evalBody]
  rw [if_neg (by omega), if_neg (by rintro ⟨h3, -⟩; omega), if_pos hf]

/-- Three-of-a-kind branch (`bot.py` line 375): top multiplicity exactly 3,
no second pair, no flush, no straight scores 0.75. -/
theorem evalBody_trips {hole_cards board : List Card}
    (h3 : max_multiplicity (hole_cards.map Card.rank ++ board.map Card.rank) = 3)
    (hp : pair_count (hole_cards.map Card.rank ++ board.map Card.rank) ≤ 1)
    (hf : has_flush hole_cards board = false)
    (hs : has_straight hole_cards board = false) :
    evalBody hole_cards board = .ok (3/4) := by
  simp only [evalBody]
  rw [if_neg (by omega), if_neg (by rintro ⟨-, hp2⟩; omega), if_neg (by simp [hf]),
    if_neg (by simp [hs]), if_pos (by omega)]

/-- Two-pair branch (`bot.py` line 377): top multiplicity exactly 2 with at
least two paired ranks, no flush, no straight scores 0.65. -/
theorem evalBody_two_pair {hole_cards board : List Card}
    (h2 : max_multiplicity (hole_cards.map Card.rank ++ board.map Card.rank) = 2)
    (hp : 2 ≤ pair_count (hole_cards.map Card.rank ++ board.map Card.rank))
    (hf : has_flush hole_cards board = false)
    (hs : has_straight hole_cards board = false) :
    evalBody hole_cards board = .ok (13/20) := by
  simp only [evalBody]
  rw [if_neg (by omega), if_neg (by rintro ⟨h3, -⟩; omega), if_neg (by simp [hf]),
    if_neg (by simp [hs]), if_neg (by omega), if_pos hp]

/-! ## Claim C1 -/

/-- C1 counterexample: the 2-6 straight flush in hearts (a straight and a
flush, with no rank repeated) is scored 0.85 by `evaluate_postflop_hand`,
which is NOT strictly greater than the 0.95 of a four-of-a-kind hand — the
classifier has no straight-flush tier, so the claim as stated is false. -/
theorem c1_counterexample :
    has_straight sfHole sfBoard = true ∧ has_flush sfHole sfBoard = true ∧
    4 ≤ max_multiplicity (quadsHole.map Card.rank ++ quadsBoard.map Card.rank) ∧
    evaluate_postflop_hand sfHole sfBoard = 17/20 ∧
    evaluate_postflop_hand quadsHole quadsBoard = 19/20 ∧
    ¬ evaluate_postflop_hand quadsHole quadsBoard < evaluate_postflop_hand sfHole sfBoard := by
  refine ⟨rfl, rfl, by decide, rfl, rfl, ?_⟩
  rw [show evaluate_postflop_hand quadsHole quadsBoard = 19/20 from rfl,
    show evaluate_postflop_hand sfHole sfBoard = 17/20 from rfl]
  norm_num

/-- C1 (amended): a card set forming both a straight and a flush (with no
rank multiplicity above 2, so that the quads and full-house branches do not
fire) is classified as a plain flush and scored 0.85, which is strictly
LESS than the 0.95 of every four-of-a-kind hand; there is no straight-flush
tier in the classifier. -/
theorem c1_straight_flush_scores_as_flush :
    ∀ hole_cards board hole' board' : List Card,
    hole_cards ≠ [] → board ≠ [] →
    has_straight hole_cards board = true → has_flush hole_cards board = true →
    max_multiplicity (hole_cards.map Card.rank ++ board.map Card.rank) ≤ 2 →
    hole' ≠ [] → board' ≠ [] →
    4 ≤ max_multiplicity (hole'.map Card.rank ++ board'.map Card.rank) →
    evaluate_postflop_hand hole_cards board = 17/20 ∧
    evaluate_postflop_hand hole' board' = 19/20 ∧
    evaluate_postflop_hand hole_cards board < evaluate_postflop_hand hole' board' := by
  intro hole_cards board hole' board' hh hb _hs hf hm hh' hb' hq
  have e1 := evaluate_eq_of_body hh hb (evalBody_flush hm hf)
  have e2 := evaluate_eq_of_body hh' hb' (evalBody_quads hq)
  refine ⟨e1, e2, ?_⟩
  rw [e1, e2]
  norm_num

/-- C1 witness: the amended theorem applied to the concrete straight flush
and quads hands. -/
theorem c1_witness :
    evaluate_postflop_hand sfHole sfBoard = 17/20 ∧
    evaluate_postflop_hand quadsHole quadsBoard = 19/20 ∧
    evaluate_postflop_hand sfHole sfBoard < evaluate_postflop_hand quadsHole quadsBoard :=
  c1_straight_flush_scores_as_flush sfHole sfBoard quadsHole quadsBoard
    (by decide) (by decide) (by decide) (by decide) (by decide)
    (by decide) (by decide) (by decide)

/-! ## Claim C2 -/

/-- C2 counterexample: the full-house-shaped hand AAAKK (top count 3, second
count 2) scores 0.90, strictly ABOVE the 0.85 of a flush hand and different
from the 0.75 of a plain three-of-a-kind — so full-house-shaped inputs are
neither in the trips tier nor below flush, and the claim as stated is
false. -/
theorem c2_counterexample :
    max_multiplicity (fullHouseHole.map Card.rank ++ fullHouseBoard.map Card.rank) = 3 ∧
    2 ≤ pair_count (fullHouseHole.map Card.rank ++ fullHouseBoard.map Card.rank) ∧
    has_flush flushHole flushBoard = true ∧
    evaluate_postflop_hand fullHouseHole fullHouseBoard = 9/10 ∧
    evaluate_postflop_hand flushHole flushBoard = 17/20 ∧
    evaluate_postflop_hand tripsHole tripsBoard = 3/4 ∧
    ¬ evaluate_postflop_hand fullHouseHole fullHouseBoard ≤ evaluate_postflop_hand flushHole flushBoard ∧
    evaluate_postflop_hand fullHouseHole fullHouseBoard ≠ evaluate_postflop_hand tripsHole tripsBoard := by
  refine ⟨by decide, by decide, rfl, rfl, rfl, rfl, ?_, ?_⟩ <;>
    rw [show evaluate_postflop_hand fullHouseHole fullHouseBoard = 9/10 from rfl]
  · rw [show evaluate_postflop_hand flushHole flushBoard = 17/20 from rfl]
    norm_num
  · rw [show evaluate_postflop_hand tripsHole tripsBoard = 3/4 from rfl]
    norm_num

/-- C2 (amended): full-house-shaped inputs (top rank count 3 and a second
rank count ≥ 2) occupy their own tier scored 0.90, strictly ABOVE every
flush-classified card set's 0.85 and strictly above (hence never equal to)
every plain three-of-a-kind's 0.75. -/
theorem c2_full_house_above_flush_and_trips :
    ∀ hole_cards board hole' board' hole'' board'' : List Card,
    hole_cards ≠ [] → board ≠ [] →
    max_multiplicity (hole_cards.map Card.rank ++ board.map Card.rank) = 3 →
    2 ≤ pair_count (hole_cards.map Card.rank ++ board.map Card.rank) →
    hole' ≠ [] → board' ≠ [] →
    max_multiplicity (hole'.map Card.rank ++ board'.map Card.rank) ≤ 2 →
    has_flush hole' board' = true →
    hole'' ≠ [] → board'' ≠ [] →
    max_multiplicity (hole''.map Card.rank ++ board''.map Card.rank) = 3 →
    pair_count (hole''.map Card.rank ++ board''.map Card.rank) ≤ 1 →
    has_flush hole'' board'' = false → has_straight hole'' board'' = false →
    evaluate_postflop_hand hole_cards board = 9/10 ∧
    evaluate_postflop_hand hole' board' = 17/20 ∧
    evaluate_postflop_hand hole'' board'' = 3/4 ∧
    evaluate_postflop_hand hole' board' < evaluate_postflop_hand hole_cards board ∧
    evaluate_postflop_hand hole'' board'' < evaluate_postflop_hand hole_cards board := by
  intro hole_cards board hole' board' hole'' board'' hh hb h3 hp hh' hb' hm' hf'
    hh'' hb'' h3'' hp'' hf'' hs''
  have e1 := evaluate_eq_of_body hh hb (evalBody_full_house h3 hp)
  have e2 := evaluate_eq_of_body hh' hb' (evalBody_flush hm' hf')
  have e3 := evaluate_eq_of_body hh'' hb'' (evalBody_trips h3'' hp'' hf'' hs'')
  refine ⟨e1, e2, e3, ?_, ?_⟩
  · rw [e1, e2]; norm_num
  · rw [e1, e3]; norm_num

/-- C2 witness: the amended theorem applied to the concrete full house,
flush and trips hands. -/
theorem c2_witness :
    evaluate_postflop_hand fullHouseHole fullHouseBoard = 9/10 ∧
    evaluate_postflop_hand flushHole flushBoard = 17/20 ∧
    evaluate_postflop_hand tripsHole tripsBoard = 3/4 ∧
    evaluate_postflop_hand flushHole flushBoard < evaluate_postflop_hand fullHouseHole fullHouseBoard ∧
    evaluate_postflop_hand tripsHole tripsBoard < evaluate_postflop_hand fullHouseHole fullHouseBoard :=
  c2_full_house_above_flush_and_trips fullHouseHole fullHouseBoard flushHole flushBoard
    tripsHole tripsBoard (by decide) (by decide) (by decide) (by decide) (by decide)
    (by decide) (by decide) (by decide) (by decide) (by decide) (by decide) (by decide)
    (by decide) (by decide)

/-! ## Claim C4 -/

/-- C4 counterexample: two one-pair hands over the same board (pair of aces
pairing the top board card, versus pair of treys pairing a low board card)
score 0.60 and 0.50 respectively — so hands in the one-pair tier do NOT
all receive equal scores, and the claim's "in particular every one-pair
hand scores equal to every other one-pair hand" is false. -/
theorem c4_counterexample :
    max_multiplicity (topPairHole.map Card.rank ++ topPairBoard.map Card.rank) = 2 ∧
    pair_count (topPairHole.map Card.rank ++ topPairBoard.map Card.rank) = 1 ∧
    max_multiplicity (lowPairHole.map Card.rank ++ lowPairBoard.map Card.rank) = 2 ∧
    pair_count (lowPairHole.map Card.rank ++ lowPairBoard.map Card.rank) = 1 ∧
    evaluate_postflop_hand topPairHole topPairBoard = 3/5 ∧
    evaluate_postflop_hand lowPairHole lowPairBoard = 1/2 ∧
    evaluate_postflop_hand topPairHole topPairBoard ≠ evaluate_postflop_hand lowPairHole lowPairBoard := by
  refine ⟨by decide, by decide, by decide, by decide, rfl, rfl, ?_⟩
  rw [show evaluate_postflop_hand topPairHole topPairBoard = 3/5 from rfl,
    show evaluate_postflop_hand lowPairHole lowPairBoard = 1/2 from rfl]
  norm_num

/-- C4 (amended): within the four tiers that genuinely carry no tiebreak
payload — four of a kind (0.95), full-house shape (0.90), three of a kind
(0.75) and two pair (0.65) — any two card sets classifying into the same
tier receive equal scores regardless of the ranks involved; the one-pair
tier however splits into two scores, 0.60 when the highest board rank is
paired with the hole and 0.50 otherwise, witnessed by the final concrete
conjunct. -/
theorem c4_kicker_invariance :
    ∀ hole_cards board hole' board' : List Card,
    hole_cards ≠ [] → board ≠ [] → hole' ≠ [] → board' ≠ [] →
    ((4 ≤ max_multiplicity (hole_cards.map Card.rank ++ board.map Card.rank) ∧
      4 ≤ max_multiplicity (hole'.map Card.rank ++ board'.map Card.rank)) →
      evaluate_postflop_hand hole_cards board = evaluate_postflop_hand hole' board') ∧
    ((max_multiplicity (hole_cards.map Card.rank ++ board.map Card.rank) = 3 ∧
      2 ≤ pair_count (hole_cards.map Card.rank ++ board.map Card.rank) ∧
      max_multiplicity (hole'.map Card.rank ++ board'.map Card.rank) = 3 ∧
      2 ≤ pair_count (hole'.map Card.rank ++ board'.map Card.rank)) →
      evaluate_postflop_hand hole_cards board = evaluate_postflop_hand hole' board') ∧
    ((max_multiplicity (hole_cards.map Card.rank ++ board.map Card.rank) = 3 ∧
      pair_count (hole_cards.map Card.rank ++ board.map Card.rank) ≤ 1 ∧
      has_flush hole_cards board = false ∧ has_straight hole_cards board = false ∧
      max_multiplicity (hole'.map Card.rank ++ board'.map Card.rank) = 3 ∧
      pair_count (hole'.map Card.rank ++ board'.map Card.rank) ≤ 1 ∧
      has_flush hole' board' = false ∧ has_straight hole' board' = false) →
      evaluate_postflop_hand hole_cards board = evaluate_postflop_hand hole' board') ∧
    ((max_multiplicity (hole_cards.map Card.rank ++ board.map Card.rank) = 2 ∧
      2 ≤ pair_count (hole_cards.map Card.rank ++ board.map Card.rank) ∧
      has_flush hole_cards board = false ∧ has_straight hole_cards board = false ∧
      max_multiplicity (hole'.map Card.rank ++ board'.map Card.rank) = 2 ∧
      2 ≤ pair_count (hole'.map Card.rank ++ board'.map Card.rank) ∧
      has_flush hole' board' = false ∧ has_straight hole' board' = false) →
      evaluate_postflop_hand hole_cards board = evaluate_postflop_hand hole' board') ∧
    (evaluate_postflop_hand topPairHole topPairBoard = 3/5 ∧
      evaluate_postflop_hand lowPairHole lowPairBoard = 1/2) := by
  intro hole_cards board hole' board' hh hb hh' hb'
  refine ⟨?_, ?_, ?_, ?_, rfl, rfl⟩
  · rintro ⟨h1, h2⟩
    rw [evaluate_eq_of_body hh hb (evalBody_quads h1),
      evaluate_eq_of_body hh' hb' (evalBody_quads h2)]
  · rintro ⟨h1, h2, h3, h4⟩
    rw [evaluate_eq_of_body hh hb (evalBody_full_house h1 h2),
      evaluate_eq_of_body hh' hb' (evalBody_full_house h3 h4)]
  · rintro ⟨h1, h2, h3, h4, h5, h6, h7, h8⟩
    rw [evaluate_eq_of_body hh hb (evalBody_trips h1 h2 h3 h4),
      evaluate_eq_of_body hh' hb' (evalBody_trips h5 h6 h7 h8)]
  · rintro ⟨h1, h2, h3, h4, h5, h6, h7, h8⟩
    rw [evaluate_eq_of_body hh hb (evalBody_two_pair h1 h2 h3 h4),
      evaluate_eq_of_body hh' hb' (evalBody_two_pair h5 h6 h7 h8)]

/-- C4 witness: the quads conjunct of the amended theorem applied to quad
aces (kicker K) and quad deuces (kicker 9) — equal scores despite entirely
different ranks. -/
theorem c4_witness :
    evaluate_postflop_hand quadsHole quadsBoard = evaluate_postflop_hand quadsHole' quadsBoard' :=
  (c4_kicker_invariance quadsHole quadsBoard quadsHole' quadsBoard'
    (by decide) (by decide) (by decide) (by decide)).1 ⟨by decide, by decide⟩

/-! ## Claim C7 -/

/-- C7 counterexample: invoking the classifier with only 3 cards (Ah Kd /
Qs) does not fail at all — the body succeeds and the call silently returns
the ordinary score 0.45.  No `DegenerateInputError` (nor any error) exists
in the code. -/
theorem c7_counterexample :
    (shortHole ++ shortBoard).length < 5 ∧
    evalBody shortHole shortBoard = .ok (9/20) ∧
    evaluate_postflop_hand shortHole shortBoard = 9/20 :=
  ⟨by decide, rfl, rfl⟩

/-- C7 (amended): invoking the classifier with fewer than 5 cards never
fails: with an empty hole or board list it silently returns the default
0.3, and otherwise (given valid rank characters) the body succeeds and an
ordinary score from the usual value set is returned. -/
theorem c7_short_input_scores_silently :
    ∀ hole_cards board : List Card,
    (∀ c ∈ hole_cards ++ board, c.rank ∈ rankOrder) →
    (hole_cards ++ board).length < 5 →
    ((hole_cards = [] ∨ board = []) → evaluate_postflop_hand hole_cards board = 3/10) ∧
    evaluate_postflop_hand hole_cards board ∈ postflopValues ∧
    (hole_cards ≠ [] → board ≠ [] → ∃ q, evalBody hole_cards board = .ok q) := by
  intro hole_cards board hv _hlen
  refine ⟨?_, evaluate_mem_postflopValues _ _, fun _ _ => evalBody_isOk hv⟩
  intro hdeg
  unfold evaluate_postflop_hand
  rw [if_pos hdeg]

/-- C7 witness: the amended theorem applied to the concrete 3-card input. -/
theorem c7_witness :
    ((shortHole = [] ∨ shortBoard = []) → evaluate_postflop_hand shortHole shortBoard = 3/10) ∧
    evaluate_postflop_hand shortHole shortBoard ∈ postflopValues ∧
    (shortHole ≠ [] → shortBoard ≠ [] → ∃ q, evalBody shortHole shortBoard = .ok q) :=
  c7_short_input_scores_silently shortHole shortBoard (by decide) (by decide)

/-! ## Claim C8 -/

/-- C8: for every hole-card list and board list of cards with valid rank
characters, `evaluate_postflop_hand` is total — the embedded body never
fails, and any failure would anyway be caught and mapped to 0.35 — and its
result is one of the eleven values {0.3, 0.35, 0.45, 0.5, 0.6, 0.65, 0.75,
0.8, 0.85, 0.9, 0.95}, hence lies in [0.3, 0.95]; when either list is empty
it returns 0.3. -/
theorem c8_total_and_bounded :
    ∀ hole_cards board : List Card,
    (∀ c ∈ hole_cards ++ board, c.rank ∈ rankOrder) →
    evaluate_postflop_hand hole_cards board ∈ postflopValues ∧
    3/10 ≤ evaluate_postflop_hand hole_cards board ∧
    evaluate_postflop_hand hole_cards board ≤ 19/20 ∧
    ((hole_cards = [] ∨ board = []) → evaluate_postflop_hand hole_cards board = 3/10) ∧
    (hole_cards ≠ [] → board ≠ [] → ∃ q, evalBody hole_cards board = .ok q) := by
  intro hole_cards board hv
  have hm := evaluate_mem_postflopValues hole_cards board
  have hbd := postflopValues_bounds _ hm
  refine ⟨hm, hbd.1, hbd.2, ?_, fun _ _ => evalBody_isOk hv⟩
  intro hdeg
  unfold evaluate_postflop_hand
  rw [if_pos hdeg]

/-- C8 witness: the theorem applied to the concrete flush hand. -/
theorem c8_witness :
    evaluate_postflop_hand flushHole flushBoard ∈ postflopValues ∧
    3/10 ≤ evaluate_postflop_hand flushHole flushBoard ∧
    evaluate_postflop_hand flushHole flushBoard ≤ 19/20 ∧
    ((flushHole = [] ∨ flushBoard = []) → evaluate_postflop_hand flushHole flushBoard = 3/10) ∧
    (flushHole ≠ [] → flushBoard ≠ [] → ∃ q, evalBody flushHole flushBoard = .ok q) :=
  c8_total_and_bounded flushHole flushBoard (by decide)

/-! ## Claim C3 -/

/-- C3: the ace-low wheel is not recognised: on the card set {A,2,3,4,5}
with no flush, `has_straight` returns false and the hand falls through to
the high-card branch (scoring 0.45, the high-card-with-draw value, not the
straight tier's 0.80); and in general a straight is detected exactly when
some window of 5 consecutive values of the fixed order 2..A lies in the
set of ranks present. -/
theorem c3_no_ace_low_wheel :
    has_straight wheelHole wheelBoard = false ∧
    has_flush wheelHole wheelBoard = false ∧
    evaluate_postflop_hand wheelHole wheelBoard = 9/20 ∧
    evaluate_postflop_hand wheelHole wheelBoard ≠ 4/5 ∧
    (∀ hole_cards board : List Card, has_straight hole_cards board = true ↔
      ∃ i, i < 9 ∧ ∀ r ∈ (rankOrder.drop i).take 5, r ∈ (hole_cards ++ board).map Card.rank) := by
  refine ⟨rfl, rfl, rfl, ?_, ?_⟩
  · rw [show evaluate_postflop_hand wheelHole wheelBoard = 9/20 from rfl]
    norm_num
  · intro hole_cards board
    simp [has_straight, List.any_eq_true, List.all_eq_true, List.mem_range]

/-! ## Claim C10 -/

/-- C10: straight detection implies straight-draw detection — whenever a
full 5-window of `rankOrder` is present, its first 4-window already has 4 ≥
3 present ranks, and the window index remains in range. -/
theorem c10_straight_implies_draw :
    ∀ hole_cards board : List Card,
    has_straight hole_cards board = true → has_straight_draw hole_cards board = true := by
  intro hole_cards board h
  simp only [has_straight] at h
  rw [List.any_eq_true] at h
  obtain ⟨i, hi, hall⟩ := h
  have hi9 : i < 9 := List.mem_range.mp hi
  simp only [has_straight_draw]
  rw [List.any_eq_true]
  refine ⟨i, List.mem_range.mpr (by omega), ?_⟩
  rw [decide_eq_true_iff]
  have hsub : ∀ x ∈ (rankOrder.drop i).take 4, x ∈ (rankOrder.drop i).take 5 := by
    intro x hx
    have h44 : (rankOrder.drop i).take 4 = ((rankOrder.drop i).take 5).take 4 := by
      rw [List.take_take]
      norm_num
    rw [h44] at hx
    exact List.take_subset _ _ hx
  have hcnt : ((rankOrder.drop i).take 4).countP
      (fun r => decide (r ∈ (hole_cards ++ board).map Card.rank)) =
      ((rankOrder.drop i).take 4).length := by
    apply List.countP_eq_length.mpr
    intro a ha
    exact List.all_eq_true.mp hall a (hsub a ha)
  rw [hcnt, List.length_take, List.length_drop]
  have hlen : rankOrder.length = 13 := by decide
  omega

/-- C10 witness: the implication applied to the concrete 2-6 straight. -/
theorem c10_witness :
    has_straight sfHole sfBoard = true ∧ has_straight_draw sfHole sfBoard = true :=
  ⟨by decide, c10_straight_implies_draw sfHole sfBoard (by decide)⟩

/-! ## Claim C9 -/

/-- The rational branch tree equals the ×20 natural tree divided by 20. -/
theorem strengthCore_eq_coreN (rank1 rank2 : Char) (v1 v2 : ℕ) (suited : Bool) :
    strengthCore rank1 rank2 v1 v2 suited = (strengthCoreN rank1 rank2 v1 v2 suited : ℚ) / 20 := by
  simp only [strengthCore, strengthCoreN, Nat.cast_ite, Nat.cast_ofNat,
    apply_ite (fun x : ℚ => x / 20)]
  norm_num

/-- Looking up a valid rank character always succeeds. -/
theorem rank_values_lookup_valid :
    ∀ r ∈ rankOrder, rank_values.lookup r = some ((rank_values.lookup r).getD 0) := by
  decide

/-- `get_preflop_hand_strength` on two cards reduces to `strengthCore` when
both rank lookups succeed. -/
theorem get_preflop_eq_core (r1 r2 s t : Char) (v1 v2 : ℕ)
    (h1 : rank_values.lookup r1 = some v1) (h2 : rank_values.lookup r2 = some v2) :
    get_preflop_hand_strength [⟨r1, s⟩, ⟨r2, t⟩] =
      .ok (strengthCore r1 r2 v1 v2 (decide (s = t))) := by
  simp only [get_preflop_hand_strength, h1, h2]

/-- The exhaustive ×20 facts behind C9: over all 13 × 13 valid rank pairs,
the offsuit value never exceeds the suited value and both lie in
[4, 19] (i.e. [0.2, 0.95] after division by 20). -/
theorem strengthCoreN_facts :
    ∀ r1 ∈ rankOrder, ∀ r2 ∈ rankOrder,
    strengthCoreN r1 r2 ((rank_values.lookup r1).getD 0) ((rank_values.lookup r2).getD 0) false ≤
      strengthCoreN r1 r2 ((rank_values.lookup r1).getD 0) ((rank_values.lookup r2).getD 0) true ∧
    4 ≤ strengthCoreN r1 r2 ((rank_values.lookup r1).getD 0) ((rank_values.lookup r2).getD 0) false ∧
    strengthCoreN r1 r2 ((rank_values.lookup r1).getD 0) ((rank_values.lookup r2).getD 0) true ≤ 19 ∧
    4 ≤ strengthCoreN r1 r2 ((rank_values.lookup r1).getD 0) ((rank_values.lookup r2).getD 0) true ∧
    strengthCoreN r1 r2 ((rank_values.lookup r1).getD 0) ((rank_values.lookup r2).getD 0) false ≤ 19 := by
  decide

/-- C9: preflop strength is monotone in suitedness — for every two valid
ranks, the suited combination's strength is at least the offsuit
combination's, and both values lie in [0.2, 0.95].  (The claim restricts to
distinct ranks; the statement holds for all rank pairs, equal ranks
included, since the pair branch ignores suits.) -/
theorem c9_suited_ge_offsuit :
    ∀ r1 r2 : Char, r1 ∈ rankOrder → r2 ∈ rankOrder →
    ∀ s t u v : Char, s = t → u ≠ v →
    ∃ qs qo : ℚ,
      get_preflop_hand_strength [⟨r1, s⟩, ⟨r2, t⟩] = .ok qs ∧
      get_preflop_hand_strength [⟨r1, u⟩, ⟨r2, v⟩] = .ok qo ∧
      qo ≤ qs ∧ 1/5 ≤ qo ∧ qo ≤ 19/20 ∧ 1/5 ≤ qs ∧ qs ≤ 19/20 := by
  intro r1 r2 h1 h2 s t u v hst huv
  subst hst
  have hl1 := rank_values_lookup_valid r1 h1
  have hl2 := rank_values_lookup_valid r2 h2
  have e1 := get_preflop_eq_core r1 r2 s s _ _ hl1 hl2
  have e2 := get_preflop_eq_core r1 r2 u v _ _ hl1 hl2
  rw [decide_eq_true (Eq.refl s)] at e1
  rw [decide_eq_false huv] at e2
  refine ⟨_, _, e1, e2, ?_, ?_, ?_, ?_, ?_⟩ <;>
    rw [strengthCore_eq_coreN] <;>
    [skip; skip; skip; skip; skip]
  · rw [strengthCore_eq_coreN]
    have h := (strengthCoreN_facts r1 h1 r2 h2).1
    have := (Nat.cast_le (α := ℚ)).mpr h
    linarith
  · have h := (strengthCoreN_facts r1 h1 r2 h2).2.1
    have := (Nat.cast_le (α := ℚ)).mpr h
    push_cast at this ⊢
    linarith
  · have h := (strengthCoreN_facts r1 h1 r2 h2).2.2.2.2
    have := (Nat.cast_le (α := ℚ)).mpr h
    push_cast at this ⊢
    linarith
  · have h := (strengthCoreN_facts r1 h1 r2 h2).2.2.2.1
    have := (Nat.cast_le (α := ℚ)).mpr h
    push_cast at this ⊢
    linarith
  · have h := (strengthCoreN_facts r1 h1 r2 h2).2.2.1
    have := (Nat.cast_le (α := ℚ)).mpr h
    push_cast at this ⊢
    linarith

/-- C9 witness: AK suited versus AK offsuit (0.80 ≥ 0.75, both in
range). -/
theorem c9_witness :
    ∃ qs qo : ℚ,
      get_preflop_hand_strength [⟨'A', 'h'⟩, ⟨'K', 'h'⟩] = .ok qs ∧
      get_preflop_hand_strength [⟨'A', 'h'⟩, ⟨'K', 'd'⟩] = .ok qo ∧
      qo ≤ qs ∧ 1/5 ≤ qo ∧ qo ≤ 19/20 ∧ 1/5 ≤ qs ∧ qs ≤ 19/20 :=
  c9_suited_ge_offsuit 'A' 'K' (by decide) (by decide) 'h' 'h' 'h' 'd' rfl (by decide)

/-! ## Claim C6 -/

/-- C6: `get_action` never propagates an exception.  The function is total
by construction of the embedded catch-all, and the two conjuncts pin down
its semantics exactly: when the body (lines 196-212) succeeds the result is
passed through unchanged, and when any internal step fails the result is
the hardcoded emergency fallback `getActionFallback` — CHECK when the
clamped call amount is 0, CALL when it is at most `remaining_chips // 20`,
otherwise FOLD — computed from the same clamped `amount_to_call` local the
`except` clause reads. -/
theorem c6_get_action_never_raises :
    ∀ (self : SimplePlayerState) (round_state : RoundStateClient)
      (remaining_chips : ℤ) (r : ℚ),
    (getActionBody self round_state remaining_chips r = .error () →
      get_action self round_state remaining_chips r =
        getActionFallback (clampedCall self round_state remaining_chips) remaining_chips) ∧
    (∀ a, getActionBody self round_state remaining_chips r = .ok a →
      get_action self round_state remaining_chips r = a) := by
  intro self round_state remaining_chips r
  constructor
  · intro h
    simp only [get_action, h]
  · intro a h
    simp only [get_action, h]

/-- C6 witness: with a malformed hole card in round 1 the body fails, and
`get_action` returns the fallback — here CALL 50, since the 50 to call is
exactly `1000 // 20`. -/
theorem c6_witness :
    getActionBody failSelf failRound 1000 0 = .error () ∧
    get_action failSelf failRound 1000 0 = (PokerAction.CALL, 50) := by
  refine ⟨rfl, ?_⟩
  rw [(c6_get_action_never_raises failSelf failRound 1000 0).1 rfl]
  rfl

/-! ## Claim C5 -/

/-- The residual deck never contains duplicates (spec §8 deck invariant,
used for the no-replacement property). -/
theorem build_deck_nodup (excluded : List Card) : (build_deck excluded).Nodup :=
  List.Nodup.filter _ (by decide)

/-- The residual deck contains no excluded card. -/
theorem mem_build_deck_not_excluded {excluded : List Card} {c : Card}
    (h : c ∈ build_deck excluded) : c ∉ excluded := by
  rw [build_deck, List.mem_filter] at h
  intro hmem
  have h2 := h.2
  rw [Bool.not_eq_true'] at h2
  rw [show excluded.contains c = List.elem c excluded from rfl,
    List.elem_iff.mpr hmem] at h2
  cases h2

/-- A trial with at least one opponent and enough cards in the shuffled deck
always succeeds. -/
theorem run_trial_isOk {hole_cards board : List Card} {opponent_count : ℕ}
    {shuffled : List Card} (hopp : 1 ≤ opponent_count)
    (hlen : 2 * opponent_count + (5 - board.length) ≤ shuffled.length) :
    ∃ t, run_trial hole_cards board opponent_count shuffled = .ok t := by
  rcases hmap : opponent_scores (trialDraw board.length opponent_count shuffled)
      (board ++ board_completion board.length opponent_count shuffled) opponent_count
    with _ | ⟨o, os⟩
  · exfalso
    have hrange : List.range opponent_count = [] := List.map_eq_nil_iff.mp hmap
    have := congrArg List.length hrange
    simp at this
    omega
  · simp only [run_trial]
    rw [if_neg (by omega), hmap]
    exact ⟨_, rfl⟩

/-- When every trial succeeds, `run_trials` succeeds with one outcome per
trial. -/
theorem run_trials_ok {hole_cards board : List Card} {opponent_count : ℕ}
    {shuffles : List (List Card)}
    (h : ∀ s ∈ shuffles, ∃ t, run_trial hole_cards board opponent_count s = .ok t) :
    ∃ outcomes, run_trials hole_cards board opponent_count shuffles = .ok outcomes ∧
      outcomes.length = shuffles.length := by
  induction shuffles with
  | nil => exact ⟨[], rfl, rfl⟩
  | cons s ss ih =>
    obtain ⟨t, ht⟩ := h s (List.mem_cons_self s ss)
    obtain ⟨os, hos, hlen⟩ := ih fun x hx => h x (List.mem_cons_of_mem s hx)
    refine ⟨t :: os, ?_, by simp [hlen]⟩
    simp only [run_trials, ht, hos]

/-- Each trial contributes at most one of win/tie, so the two counts sum to
at most the trial count. -/
theorem countP_win_tie_le (l : List TrialOutcome) :
    l.countP (fun o => o == TrialOutcome.win) +
      l.countP (fun o => o == TrialOutcome.tie) ≤ l.length := by
  induction l with
  | nil => simp
  | cons o l ih =>
    rw [List.countP_cons, List.countP_cons, List.length_cons]
    cases o <;> simp <;> omega

/-- C5 (spec-modelled): the equity estimator's contract — given 2 hole
cards, a board of at most 4 cards, at least one opponent and at least one
trial, with each trial's shuffle a permutation of the residual deck and the
deck large enough for the requested deal, every trial samples its cards
without replacement from the residual deck (the drawn cards are distinct
and disjoint from the known cards), all trials succeed, and the call
returns exactly `(wins + 0.5·ties) / trials`, a value in [0, 1]. -/
theorem c5_estimate_contract :
    ∀ (hole_cards board : List Card) (opponent_count : ℕ) (shuffles : List (List Card)),
    hole_cards.length = 2 → board.length ≤ 4 → 1 ≤ opponent_count → 1 ≤ shuffles.length →
    (∀ s ∈ shuffles, List.Perm s (build_deck (hole_cards ++ board))) →
    2 * opponent_count + (5 - board.length) ≤ (build_deck (hole_cards ++ board)).length →
    (∀ s ∈ shuffles, (trialDraw board.length opponent_count s).Nodup ∧
      ∀ c ∈ trialDraw board.length opponent_count s, c ∉ hole_cards ++ board) ∧
    ∃ outcomes : List TrialOutcome,
      run_trials hole_cards board opponent_count shuffles = .ok outcomes ∧
      outcomes.length = shuffles.length ∧
      spec_estimate hole_cards board opponent_count shuffles =
        .ok (((outcomes.countP (fun o => o == TrialOutcome.win) : ℚ) +
          (1/2) * (outcomes.countP (fun o => o == TrialOutcome.tie) : ℚ)) /
          (shuffles.length : ℚ)) ∧
      0 ≤ ((outcomes.countP (fun o => o == TrialOutcome.win) : ℚ) +
          (1/2) * (outcomes.countP (fun o => o == TrialOutcome.tie) : ℚ)) /
          (shuffles.length : ℚ) ∧
      ((outcomes.countP (fun o => o == TrialOutcome.win) : ℚ) +
          (1/2) * (outcomes.countP (fun o => o == TrialOutcome.tie) : ℚ)) /
          (shuffles.length : ℚ) ≤ 1 := by
  intro hole_cards board opponent_count shuffles _hh _hb hopp htr hperm hdeck
  constructor
  · intro s hs
    have hps := hperm s hs
    have hnd : s.Nodup := hps.symm.nodup (build_deck_nodup _)
    constructor
    · exact List.Nodup.sublist (List.take_sublist _ _) (List.nodup_reverse.mpr hnd)
    · intro c hc
      have hcs : c ∈ s := List.mem_reverse.mp (List.take_subset _ _ hc)
      exact mem_build_deck_not_excluded (hps.mem_iff.mp hcs)
  · have hok : ∀ s ∈ shuffles, ∃ t, run_trial hole_cards board opponent_count s = .ok t := by
      intro s hs
      apply run_trial_isOk hopp
      rw [(hperm s hs).length_eq]
      exact hdeck
    obtain ⟨outcomes, hout, hlen⟩ := run_trials_ok hok
    have hT : (0:ℚ) < (shuffles.length : ℚ) := by
      exact_mod_cast Nat.lt_of_lt_of_le Nat.zero_lt_one htr
    refine ⟨outcomes, hout, hlen, ?_, ?_, ?_⟩
    · simp only [spec_estimate, hout]
    · positivity
    · rw [div_le_one hT]
      have hc := countP_win_tie_le outcomes
      have hsum : (outcomes.countP (fun o => o == TrialOutcome.win) : ℚ) +
          (outcomes.countP (fun o => o == TrialOutcome.tie) : ℚ) ≤ (shuffles.length : ℚ) := by
        rw [← hlen]
        exact_mod_cast hc
      have ht2 : (0:ℚ) ≤ (outcomes.countP (fun o => o == TrialOutcome.tie) : ℚ) := by
        positivity
      linarith

/-- C5 witness: the contract theorem applied to Ah Kd on a 4-card board
against 1 opponent over 1 trial whose shuffle is the canonical residual
deck. -/
theorem c5_witness :
    (∀ s ∈ c5Shuffles, (trialDraw c5Board.length 1 s).Nodup ∧
      ∀ c ∈ trialDraw c5Board.length 1 s, c ∉ c5Hole ++ c5Board) ∧
    ∃ outcomes : List TrialOutcome,
      run_trials c5Hole c5Board 1 c5Shuffles = .ok outcomes ∧
      outcomes.length = c5Shuffles.length ∧
      spec_estimate c5Hole c5Board 1 c5Shuffles =
        .ok (((outcomes.countP (fun o => o == TrialOutcome.win) : ℚ) +
          (1/2) * (outcomes.countP (fun o => o == TrialOutcome.tie) : ℚ)) /
          (c5Shuffles.length : ℚ)) ∧
      0 ≤ ((outcomes.countP (fun o => o == TrialOutcome.win) : ℚ) +
          (1/2) * (outcomes.countP (fun o => o == TrialOutcome.tie) : ℚ)) /
          (c5Shuffles.length : ℚ) ∧
      ((outcomes.countP (fun o => o == TrialOutcome.win) : ℚ) +
          (1/2) * (outcomes.countP (fun o => o == TrialOutcome.tie) : ℚ)) /
          (c5Shuffles.length : ℚ) ≤ 1 :=
  c5_estimate_contract c5Hole c5Board 1 c5Shuffles rfl (by decide) (by decide) (by decide)
    (by
      intro s hs
      simp only [c5Shuffles, List.mem_singleton] at hs
      subst hs
      exact List.Perm.refl _)
    (by decide)

end PokerBot
